import Mathlib

/-!
A verification development for the ThingCLI build/deploy orchestrator.

The definitions below are a shallow embedding of the repository's core
components:

* `TWProjectUtilities.dependencySortedProjects`, `projectsWithArguments`
  (src/Utilities/TWProjectUtilities.ts),
* the `build` script and its inner `buildProject` (Scripts/build.ts),
* the `upload` script (Scripts/upload.ts),
* the `remove` script (Scripts/remove.ts),
* the `deploy` script (Scripts/deploy.ts),
* `TWClient._performRequest` authorization (Utilities/TWClient.ts),
* the `watch` command's debounce/re-entrancy guard (index.ts).

File-system access, console output and HTTP transport are abstracted as
explicit inputs (the discovered project list, response oracles) and explicit
outputs (traces of issued requests, printed diagnostics); control flow and
data transformations follow the TypeScript sources statement by statement.
-/

namespace ThingCLI

/-- Decidable equality for `Except` results, so that concrete runs of the
fallible operations can be checked by `decide`. -/
instance {ε α : Type} [DecidableEq ε] [DecidableEq α] :
    DecidableEq (Except ε α) := fun x y =>
  match x, y with
  | .ok a, .ok b =>
    if h : a = b then isTrue (by rw [h])
    else isFalse (by intro he; cases he; exact h rfl)
  | .error a, .error b =>
    if h : a = b then isTrue (by rw [h])
    else isFalse (by intro he; cases he; exact h rfl)
  | .ok _, .error _ => isFalse (by intro he; cases he)
  | .error _, .ok _ => isFalse (by intro he; cases he)

/-- The kind of a project (`TWProjectKind` in TWProjectUtilities.ts):
`typeScript` when the directory has a tsconfig.json, `xml` when it has only
a twconfig.json. -/
inductive TWProjectKind where
  | typeScript
  | xml
deriving DecidableEq, Repr, Inhabited

/-- A discovered project, as produced by `TWProjectUtilities.projects()`:
the directory name, its kind, and the tsconfig.json `include` entries
(relevant only for TypeScript projects). The file-system scan itself is
abstracted: the discovered list, in directory order, is the input. -/
structure TWProjectSource where
  name : String
  kind : TWProjectKind
  includePaths : List String
deriving DecidableEq, Repr, Inhabited

/-- A project together with its resolved dependencies
(`TWProjectWithDependencies` in TWProjectUtilities.ts). `parentProjects`
holds the names of the projects this project depends on; in the source the
entries are references to project objects, which the comparator tests with
`includes` (identity); since discovered directory names are the keys used
to resolve them, names stand in for the references. -/
structure TWProjectWithDependencies where
  name : String
  kind : TWProjectKind
  parentProjects : List String
deriving DecidableEq, Repr, Inhabited

/-- JavaScript's `String.prototype.split` with a one-character separator,
over the character list: every occurrence of the separator starts a new
(possibly empty) segment, and the empty string yields one empty segment. -/
def jsSplitChars (sep : Char) : List Char → List (List Char)
  | [] => [[]]
  | c :: cs =>
    let rest := jsSplitChars sep cs
    if c = sep then [] :: rest
    else
      match rest with
      | [] => [[c]]
      | r :: rs => (c :: r) :: rs

/-- JavaScript's `String.prototype.split` with a one-character separator. -/
def jsSplit (s : String) (sep : Char) : List String :=
  (jsSplitChars sep s.toList).map (fun cs => String.mk cs)

/-- JavaScript's `String.prototype.includes` for a one-character needle:
character membership. -/
def jsIncludesChar (s : String) (c : Char) : Bool :=
  s.toList.contains c

/-- Extracts sibling-project dependency names from tsconfig `include`
entries (TWProjectUtilities.ts lines 139-145): keep entries that split on
`/` into exactly two components, the first being `..` and the second
containing neither `*` nor `.`, and take the second component. -/
def siblingDependencyNames (includePaths : List String) : List String :=
  (((includePaths.map (fun p => jsSplit p '/')).filter (fun components =>
    components.length == 2 &&
    components.getD 0 "" == ".." &&
    !(jsIncludesChar (components.getD 1 "") '*') &&
    !(jsIncludesChar (components.getD 1 "") '.'))).map (fun c => c.getD 1 ""))

/-- The declared dependency names of a project
(TWProjectUtilities.ts lines 133-146): TypeScript projects contribute the
sibling references from their tsconfig `include` list, XML projects
contribute none. -/
def parentNamesOf (p : TWProjectSource) : List String :=
  match p.kind with
  | .typeScript => siblingDependencyNames p.includePaths
  | .xml => []

/-- The error thrown when a declared dependency resolves to no discovered
project (TWProjectUtilities.ts line 158). -/
def missingDependencyMessage (dependent missing : String) : String :=
  "Project \"" ++ dependent ++ "\" depends on project \"" ++ missing ++
    "\" which does not exist."

/-- Resolves one project's list of declared dependency names against the
discovered projects (TWProjectUtilities.ts lines 154-162): each name is
looked up with `find`; the first name that matches no project throws. -/
def resolveParents (all : List TWProjectSource) (dependentName : String) :
    List String → Except String (List String)
  | [] => .ok []
  | d :: ds =>
    match all.find? (fun p2 => p2.name == d) with
    | some p2 =>
      match resolveParents all dependentName ds with
      | .ok rest => .ok (p2.name :: rest)
      | .error e => .error e
    | none => .error (missingDependencyMessage dependentName d)

/-- Resolves the declared dependencies of every project, in discovery order
(the `forEach` of TWProjectUtilities.ts lines 152-165). -/
def resolveLoop (all : List TWProjectSource) :
    List TWProjectSource → Except String (List TWProjectWithDependencies)
  | [] => .ok []
  | p :: rest =>
    match resolveParents all p.name (parentNamesOf p) with
    | .error e => .error e
    | .ok parents =>
      match resolveLoop all rest with
      | .error e => .error e
      | .ok others =>
        .ok ({ name := p.name, kind := p.kind, parentProjects := parents } :: others)

/-- The comparator passed to `Array.prototype.sort`
(TWProjectUtilities.ts lines 170-182): if p2 depends on p1 the result is 1
(p1 sorts after p2), if p1 depends on p2 the result is -1 (p1 sorts before
p2), otherwise 0. -/
def projectComparator (p1 p2 : TWProjectWithDependencies) : Int :=
  if p2.parentProjects.contains p1.name then 1
  else if p1.parentProjects.contains p2.name then -1
  else 0

/-- The binary-search probe of TimSort's binary insertion sort, as run by
V8 for `Array.prototype.sort` (and as in the Java reference
implementation): narrow `[left, right)` around the insertion point of
`pivot`, moving `right` down when `c pivot a[mid] < 0` and `left` past
`mid` otherwise. -/
def bsLoop {α : Type} (c : α → α → Int) (xs : List α) (pivot : α)
    (left right : Nat) : Nat :=
  if h : left < right then
    let mid := (left + right) / 2
    if c pivot (xs.getD mid pivot) < 0 then
      bsLoop c xs pivot left mid
    else
      bsLoop c xs pivot (mid + 1) right
  else
    left
termination_by right - left
decreasing_by
  · omega
  · omega

/-- Binary insertion of the elements of the second list, one by one, into
the already-sorted first list (TimSort's `binarySort` over the part of the
array after the initial run). -/
def binaryInsertAll {α : Type} (c : α → α → Int) :
    List α → List α → List α
  | sorted, [] => sorted
  | sorted, x :: rest =>
    let pos := bsLoop c sorted x 0 sorted.length
    binaryInsertAll c (sorted.take pos ++ x :: sorted.drop pos) rest

/-- The maximal ascending run starting at `x` (adjacent comparator values
≥ 0), returning the run and the remainder (TimSort's
`countRunAndMakeAscending`, ascending case). -/
def ascRun {α : Type} (c : α → α → Int) : α → List α → List α × List α
  | x, [] => ([x], [])
  | x, y :: ys =>
    if c y x ≥ 0 then
      let (r, rest) := ascRun c y ys
      (x :: r, rest)
    else
      ([x], y :: ys)

/-- The maximal strictly-descending run starting at `x` (adjacent
comparator values < 0), returning the run and the remainder (TimSort's
`countRunAndMakeAscending`, descending case; the caller reverses it). -/
def descRun {α : Type} (c : α → α → Int) : α → List α → List α × List α
  | x, [] => ([x], [])
  | x, y :: ys =>
    if c y x < 0 then
      let (r, rest) := descRun c y ys
      (x :: r, rest)
    else
      ([x], y :: ys)

/-- `Array.prototype.sort` with a comparator, as implemented by V8
(TimSort). For arrays shorter than the minimum merge length — always the
case for a repository's project list — TimSort finds the initial run
(reversing it when strictly descending) and then binary-inserts the
remaining elements into it; no merging occurs. -/
def jsSort {α : Type} (c : α → α → Int) : List α → List α
  | [] => []
  | [x] => [x]
  | x :: y :: rest =>
    if c y x < 0 then
      let (run, rem) := descRun c y rest
      binaryInsertAll c (x :: run).reverse rem
    else
      let (run, rem) := ascRun c y rest
      binaryInsertAll c (x :: run) rem

/-- `TWProjectUtilities.dependencySortedProjects`
(TWProjectUtilities.ts lines 127-185), over the discovered project list:
resolve every project's declared dependencies (throwing on an unresolved
name), then sort with `projectComparator`. -/
def dependencySortedProjects (ps : List TWProjectSource) :
    Except String (List TWProjectWithDependencies) :=
  match resolveLoop ps ps with
  | .error e => .error e
  | .ok resolved => .ok (jsSort projectComparator resolved)

/-- Dependents-first: in the forward order every project appears before
each of its declared dependencies. -/
def dependentsFirst (l : List TWProjectWithDependencies) : Prop :=
  ∀ i j : Fin l.length,
    (l.get j).name ∈ (l.get i).parentProjects → i < j

/-- In the exact reverse of the list, every dependency appears before each
of its dependents (the order used for Upload). -/
def dependenciesFirstInReverse (l : List TWProjectWithDependencies) : Prop :=
  ∀ i j : Fin l.reverse.length,
    (l.reverse.get j).name ∈ (l.reverse.get i).parentProjects → j < i

instance (l : List TWProjectWithDependencies) : Decidable (dependentsFirst l) := by
  unfold dependentsFirst; infer_instance

instance (l : List TWProjectWithDependencies) :
    Decidable (dependenciesFirstInReverse l) := by
  unfold dependenciesFirstInReverse; infer_instance

/-- The declared dependency edges form a DAG: some rank function sends
every declared dependency strictly below its dependent. -/
def isAcyclic (l : List TWProjectWithDependencies) : Prop :=
  ∃ rank : String → Nat,
    ∀ p ∈ l, ∀ d ∈ p.parentProjects, rank d < rank p.name

/-- JavaScript's `String.prototype.startsWith`. -/
def jsStartsWith (s pre : String) : Bool :=
  pre.toList.isPrefixOf s.toList

/-- JavaScript's `String.prototype.substring(n)`: drop the first `n`
characters. -/
def jsDropChars (s : String) (n : Nat) : String :=
  String.mk (s.toList.drop n)

/-- JavaScript's `String.prototype.trim`: strip leading and trailing
whitespace. -/
def jsTrim (s : String) : String :=
  String.mk (((s.toList.dropWhile Char.isWhitespace).reverse.dropWhile
    Char.isWhitespace).reverse)

/-- `TWProjectUtilities.projectsWithArguments`
(TWProjectUtilities.ts lines 219-231): scan the arguments for the first one
starting with `--projects=`; an empty value throws, a non-empty value is
split on commas, each entry trimmed and empty entries dropped; when no
argument matches, nothing (no filtering) is returned. -/
def projectsWithArguments : List String → Except String (Option (List String))
  | [] => .ok none
  | arg :: rest =>
    if jsStartsWith arg "--projects=" then
      let projects := jsDropChars arg ("--projects=".length)
      if projects.toList.isEmpty then
        .error "No projects have been specified."
      else
        .ok (some (((jsSplit projects ',').map jsTrim).filter
          (fun p => !p.toList.isEmpty)))
    else projectsWithArguments rest

/-! ## The Compile stage (Scripts/build.ts)

The external transformer is an opaque collaborator: for each TypeScript
project, one `TranspileResult` is the input describing what the compiler
and the post-compile validation produced for it. `buildProject` embeds the
control flow of the inner `buildProject` function of `build`, and
`buildRun` the loop over the dependency-sorted projects. -/

/-- The kind of a reported diagnostic (`DiagnosticMessageKind` of the
bm-thing-transformer dependency, as consumed by build.ts). -/
inductive DiagnosticMessageKind where
  | error
  | warning
deriving DecidableEq, Repr, Inhabited

/-- A reported diagnostic (`DiagnosticMessage` of bm-thing-transformer):
its kind and message text (file/line/column positions are irrelevant to
the control flow and omitted). -/
structure DiagnosticMessage where
  kind : DiagnosticMessageKind
  message : String
deriving DecidableEq, Repr, Inhabited

/-- What compiling one TypeScript project produced, an input to
`buildProject`: whether the external compiler signalled an unrecoverable
emit failure (`emitResult.emitSkipped`), the formatted typescript
diagnostics string, and the diagnostic messages the post-compile
validation stored in `twConfig.store['@diagnosticMessages']`. -/
structure TranspileResult where
  emitSkipped : Bool
  formattedDiagnostics : String
  storeDiagnostics : List DiagnosticMessage
deriving DecidableEq, Repr, Inhabited

/-- What `buildProject` prints after a project's compile completes:
whether the formatted typescript diagnostics were printed (build.ts lines
330-332) and the diagnostic messages printed by the loop at lines
334-337. -/
structure BuildOutput where
  printedFormattedDiagnostics : Bool
  warningsPrintedAtEnd : List DiagnosticMessage
deriving DecidableEq, Repr, Inhabited

/-- The inner `buildProject` of build.ts, for a TypeScript project.
Control flow: if the emit was skipped, throw `Compilation failed.` (lines
191-197); otherwise, if any store diagnostic is Error-kind, throw
`Validation failed.` (lines 210-218); otherwise succeed. The
`diagnosticMessages` constant declared empty at line 132 is *shadowed* at
line 207 by the store diagnostics, but that shadowing declaration is
scoped to the TypeScript branch, so the end-of-task loop at line 335
iterates the outer, still-empty list; `outerDiagnosticMessages` here is
that outer constant. -/
def buildProject (r : TranspileResult) : Except String BuildOutput :=
  let outerDiagnosticMessages : List DiagnosticMessage := []
  if r.emitSkipped then .error "Compilation failed."
  else
    let diagnosticMessages := r.storeDiagnostics
    if diagnosticMessages.any (fun m => m.kind == DiagnosticMessageKind.error) then
      .error "Validation failed."
    else
      .ok { printedFormattedDiagnostics := !r.formattedDiagnostics.isEmpty,
            warningsPrintedAtEnd := outerDiagnosticMessages }

/-- Whether compiling this project makes `buildProject` throw: an
unrecoverable emit failure or an Error-kind validation diagnostic. -/
def projectFails (r : TranspileResult) : Bool :=
  r.emitSkipped ||
    r.storeDiagnostics.any (fun m => m.kind == DiagnosticMessageKind.error)

/-- The message `buildProject` throws for a failing project. -/
def buildFailureMessage (r : TranspileResult) : String :=
  if r.emitSkipped then "Compilation failed." else "Validation failed."

/-- The `BuildOutput` of a successfully built project. -/
def mkBuildOutput (r : TranspileResult) : BuildOutput :=
  { printedFormattedDiagnostics := !r.formattedDiagnostics.isEmpty,
    warningsPrintedAtEnd := [] }

/-- The loop of `build` over the dependency-sorted projects (build.ts
lines 94-99): each project is built with an awaited `buildProject`; a
throw aborts the loop. The result pairs the outputs of the projects whose
build completed with how the loop ended. -/
def buildRun : List TranspileResult → List BuildOutput × Except String Unit
  | [] => ([], .ok ())
  | r :: rest =>
    match buildProject r with
    | .error e => ([], .error e)
    | .ok o =>
      let (os, res) := buildRun rest
      (o :: os, res)

/-- The `build` command sequencing of index.ts lines 51-55:
`await declarations(); await build(); await zip();` — the Package stage
(`zip`) runs exactly when `build` did not throw. -/
def buildCommandPackaged (rs : List TranspileResult) : Bool :=
  match (buildRun rs).2 with
  | .ok _ => true
  | .error _ => false

/-! ## The watch command (index.ts lines 31-49)

The watcher callback and the debounce timer are modelled as a state
machine driven by the single-threaded event sequence: a file-change
notification, the 500ms debounce timer firing, and the awaited
`declarations()` run finishing. -/

/-- An event processed by the watch command. -/
inductive WatchEvent where
  | fileChanged (isGeneratedStaticFile : Bool)
  | debounceTimerFired
  | declarationsFinished
deriving DecidableEq, Repr

/-- The watch command's state: the `declarationsRunning` re-entrancy
flag, whether a debounce timer is pending, whether a `declarations()` run
is executing, and how many runs were started. -/
structure WatchState where
  declarationsRunning : Bool
  timerScheduled : Bool
  declarationsActive : Bool
  runsStarted : Nat
deriving DecidableEq, Repr

/-- The initial watch state. -/
def watchInit : WatchState :=
  { declarationsRunning := false, timerScheduled := false,
    declarationsActive := false, runsStarted := 0 }

/-- One step of the watch command (index.ts lines 31-49). A file change is
dropped when `declarationsRunning` is set or when it targets the generated
static declarations file; otherwise it sets the flag and schedules the
debounce timer. The timer firing starts the `declarations()` run; the run
finishing clears the flag. -/
def watchStep (s : WatchState) : WatchEvent → WatchState
  | .fileChanged isGeneratedStaticFile =>
    if s.declarationsRunning then s
    else if isGeneratedStaticFile then s
    else { s with declarationsRunning := true, timerScheduled := true }
  | .debounceTimerFired =>
    if s.timerScheduled then
      { s with timerScheduled := false, declarationsActive := true,
               runsStarted := s.runsStarted + 1 }
    else s
  | .declarationsFinished =>
    if s.declarationsActive then
      { s with declarationsActive := false, declarationsRunning := false }
    else s

/-- Run the watch machine over an event sequence from the initial state. -/
def watchRun (events : List WatchEvent) : WatchState :=
  events.foldl watchStep watchInit

/-- The watch machine's invariant: the re-entrancy flag is set exactly
while a timer is pending or a run is active, and never both at once. -/
def watchInvariant (s : WatchState) : Bool :=
  s.declarationsRunning == (s.timerScheduled || s.declarationsActive) &&
    !(s.timerScheduled && s.declarationsActive)

/-! ## The remote client (Utilities/TWClient.ts)

The transport is abstracted as a response oracle; what matters for the
claims is which requests are issued and how authorization is selected.
JavaScript truthiness of the optional string-valued connection details
(absent, or present but empty, is falsy) is modelled by `truthy`. -/

/-- The connection details (`TWPackageJSONConnectionDetails`), sourced
from the environment or package.json. -/
structure ConnectionDetails where
  thingworxServer : Option String
  thingworxUser : Option String
  thingworxPassword : Option String
  thingworxAppKey : Option String
deriving DecidableEq, Repr, Inhabited

/-- JavaScript truthiness of an optional string: absent and empty are
falsy. -/
def truthy : Option String → Bool
  | none => false
  | some s => !s.toList.isEmpty

/-- The authorization selected for a request. -/
inductive AuthMethod where
  | appKey (key : String)
  | basic (user password : String)
deriving DecidableEq, Repr

/-- The error thrown when neither an app key nor a complete
username/password pair is configured (TWClient.ts lines 557-571, and
identically `_authorizeRequest` lines 129-144). -/
def authorizationFailureMessage : String :=
  "Unable to authorize a request to thingworx because an app key or username/password combo was not provided."

/-- The authorization step of `TWClient._performRequest` (TWClient.ts
lines 557-571): prefer the app key when truthy; otherwise use basic
credentials when both user and password are truthy; otherwise throw. -/
def authorizeConnection (d : ConnectionDetails) : Except String AuthMethod :=
  if truthy d.thingworxAppKey then
    .ok (.appKey ((d.thingworxAppKey).getD ""))
  else if truthy d.thingworxUser && truthy d.thingworxPassword then
    .ok (.basic ((d.thingworxUser).getD "") ((d.thingworxPassword).getD ""))
  else
    .error authorizationFailureMessage

/-- A request handed to the transport: the full URL, the HTTP method and
the authorization attached to it. -/
structure SentRequest where
  url : String
  method : String
  auth : AuthMethod
deriving DecidableEq, Repr

/-- A transport-level response: status code, status message and body
(`TWClientResponse`). -/
structure TWClientResponse where
  statusCode : Nat
  statusMessage : String
  body : String
deriving DecidableEq, Repr, Inhabited

/-- `TWClient._performRequest` (TWClient.ts lines 542-592): prepend the
base thingworx URL (an absent server renders as `undefined`, as a
JavaScript template literal does), select the authorization — throwing
before anything is transmitted when none is configured — and only then
hand exactly one request to the transport (`fetch`). The first component
of the result is the trace of requests actually issued. -/
def performRequest (d : ConnectionDetails) (url : String) (method : String)
    (respond : SentRequest → TWClientResponse) :
    List SentRequest × Except String TWClientResponse :=
  let fullUrl := ((d.thingworxServer).getD "undefined") ++ "/Thingworx/" ++ url
  match authorizeConnection d with
  | .error e => ([], .error e)
  | .ok auth =>
    let req : SentRequest := { url := fullUrl, method := method, auth := auth }
    ([req], .ok (respond req))

/-! ## The Upload stage (Scripts/upload.ts)

`uploadStage` embeds the separate-mode loop of `upload` (lines 62-91):
projects in *reverse* dependency-sorted order, optionally restricted by
the `--projects` filter; XML projects under the push command go through
source-control import, everything else through `uploadExtension`, which
throws on a non-200 transport response and thereby aborts the loop.
Console formatting of the server's validation report
(`formattedUploadStatus`) does not influence control flow and the thrown
message is modelled without it; the transport is a response oracle keyed
by the artifact path. -/

/-- The name of a project's artifact
(upload.ts line 70): `<package>-<project>-<version>.zip`. -/
def zipNameOf (packageName version projectName : String) : String :=
  packageName ++ "-" ++ projectName ++ "-" ++ version ++ ".zip"

/-- The path of a project's artifact in separate mode (upload.ts line
77). -/
def zipPathOf (cwd packageName version projectName : String) : String :=
  cwd ++ "/zip/projects/" ++ zipNameOf packageName version projectName

/-- The message thrown by `uploadExtension` on a non-200 response
(upload.ts lines 190-194), without the ANSI colour codes and the
formatted report body. -/
def uploadFailureMessage (r : TWClientResponse) : String :=
  "Failed to upload project to thingworx with status code " ++
    toString r.statusCode ++ " (" ++ r.statusMessage ++ ")"

/-- The per-artifact outcome of the upload loop. -/
structure UploadAttempt where
  projectName : String
  succeeded : Bool
deriving DecidableEq, Repr

/-- `uploadExtension` (upload.ts lines 181-198): send the artifact, throw
on a non-200 status, otherwise succeed with the response. -/
def uploadExtensionStep (respond : String → TWClientResponse) (path : String) :
    Except String TWClientResponse :=
  let response := respond path
  if response.statusCode ≠ 200 then .error (uploadFailureMessage response)
  else .ok response

/-- Whether the `--projects` filter excludes a project (upload.ts lines
66-68): only when a filter list is present and does not contain the
name. -/
def filterSkips (filter : Option (List String)) (name : String) : Bool :=
  match filter with
  | some projects => !(projects.contains name)
  | none => false

/-- One project's upload (upload.ts lines 73-78): an XML project under the
push command goes through the source-control import path (its four remote
steps abstracted as one oracle result), everything else through
`uploadExtensionStep`. -/
def uploadOne (push : Bool) (cwd packageName version : String)
    (respond : String → TWClientResponse)
    (scRespond : String → Except String Unit)
    (p : TWProjectWithDependencies) : Except String Unit :=
  if p.kind == TWProjectKind.xml && push then
    scRespond p.name
  else
    match uploadExtensionStep respond (zipPathOf cwd packageName version p.name) with
    | .error e => .error e
    | .ok _ => .ok ()

/-- The upload loop over the already-reversed project list (upload.ts
lines 64-91): skip filtered-out projects, upload each remaining one with
an awaited call, and let a throw abort the remainder. The first component
records, in order, the outcome of every artifact actually attempted. -/
def uploadLoop (push : Bool) (filter : Option (List String))
    (cwd packageName version : String)
    (respond : String → TWClientResponse)
    (scRespond : String → Except String Unit) :
    List TWProjectWithDependencies → List UploadAttempt × Except String Unit
  | [] => ([], .ok ())
  | p :: rest =>
    if filterSkips filter p.name then
      uploadLoop push filter cwd packageName version respond scRespond rest
    else
      match uploadOne push cwd packageName version respond scRespond p with
      | .error e => ([{ projectName := p.name, succeeded := false }], .error e)
      | .ok _ =>
        let (attempts, res) :=
          uploadLoop push filter cwd packageName version respond scRespond rest
        ({ projectName := p.name, succeeded := true } :: attempts, res)

/-- The separate-mode Upload stage (upload.ts lines 62-91): the
dependency-sorted projects, *reversed*, fed to the upload loop. -/
def uploadStage (ps : List TWProjectSource) (push : Bool)
    (filter : Option (List String)) (cwd packageName version : String)
    (respond : String → TWClientResponse)
    (scRespond : String → Except String Unit) :
    List UploadAttempt × Except String Unit :=
  match dependencySortedProjects ps with
  | .error e => ([], .error e)
  | .ok sorted =>
    uploadLoop push filter cwd packageName version respond scRespond
      sorted.reverse

/-! ## The Remove stage (Scripts/remove.ts) -/

/-- The per-package outcome of the Remove stage. -/
structure RemoveOutcome where
  packageName : String
  succeeded : Bool
deriving DecidableEq, Repr

/-- `uninstallPackage` (remove.ts lines 43-60): request deletion of the
extension package; a thrown transport error is caught and logged, and a
non-200 response is logged — in both cases the function returns normally
with a failed outcome. The oracle returns `.error` for a network-level
failure and `.ok` with the response otherwise. -/
def uninstallPackage (respond : String → Except String TWClientResponse)
    (packageName : String) : RemoveOutcome :=
  match respond packageName with
  | .error _ => { packageName := packageName, succeeded := false }
  | .ok response =>
    if response.statusCode ≠ 200 then
      { packageName := packageName, succeeded := false }
    else
      { packageName := packageName, succeeded := true }

/-- The Remove stage (remove.ts lines 12-35): in multi-project separate
mode, uninstall `<package>-<project>` for each project in *forward*
dependency-sorted order with an awaited, never-throwing
`uninstallPackage`; otherwise uninstall the single package. -/
def removeStage (ps : List TWProjectSource) (projectName : String)
    (isSeparate : Bool) (packageName : String)
    (respond : String → Except String TWClientResponse) :
    Except String (List RemoveOutcome) :=
  if projectName == "@auto" && isSeparate then
    match dependencySortedProjects ps with
    | .error e => .error e
    | .ok sorted =>
      .ok (sorted.map (fun p =>
        uninstallPackage respond (packageName ++ "-" ++ p.name)))
  else
    .ok [uninstallPackage respond packageName]

/-! ## The Deploy stage (Scripts/deploy.ts) -/

/-- The entity kind of a deployment endpoint (`TWEntityKind` of
bm-thing-transformer): the three kinds the Deploy stage dispatches on,
and every other kind with its name (the enum values are the collection
name strings). -/
inductive TWEntityKind where
  | thing
  | thingTemplate
  | thingShape
  | unsupported (kindName : String)
deriving DecidableEq, Repr

/-- The string value of an entity kind (used by the `${endpoint.kind}s`
interpolation in deploy.ts). -/
def entityKindName : TWEntityKind → String
  | .thing => "Thing"
  | .thingTemplate => "ThingTemplate"
  | .thingShape => "ThingShape"
  | .unsupported s => s

/-- A deployment endpoint recorded during compilation
(`DeploymentEndpoint` of bm-thing-transformer). -/
structure DeploymentEndpoint where
  kind : TWEntityKind
  name : String
  service : String
deriving DecidableEq, Repr

/-- A response to an invoked endpoint: the status code and, for the
implementing-things query, the entity names parsed from the JSON body's
rows. -/
structure InvokeResponse where
  statusCode : Nat
  rows : List String
deriving DecidableEq, Repr

/-- Whether the Deploy stage supports this entity kind (the non-default
cases of the switch in deploy.ts lines 11-40). -/
def supportedKind : TWEntityKind → Bool
  | .thing => true
  | .thingTemplate => true
  | .thingShape => true
  | .unsupported _ => false

/-- The console message printed when an endpoint of an unsupported kind
is skipped (deploy.ts line 38). -/
def skipMessage (e : DeploymentEndpoint) : String :=
  "Skipping unsupported deployment script " ++ e.service ++
    " for entity kind \"" ++ entityKindName e.kind ++ "\"."

/-- Processing of one deployment endpoint (the switch of deploy.ts lines
11-40), returning the remote requests issued for it and the console skip
messages. A Thing invokes its service directly (failures are caught inside
`invokeEndpoint`); a ThingTemplate or ThingShape first queries
GetImplementingThings — on a caught error or non-200 no further request is
made — then invokes the service on every implementing thing; any other
kind issues no request and prints the skip message. The oracle returns
`.error` for a network-level failure. -/
def deployOne (respond : String → Except String InvokeResponse)
    (e : DeploymentEndpoint) : List String × List String :=
  match e.kind with
  | .thing => (["Things/" ++ e.name ++ "/Services/" ++ e.service], [])
  | .thingTemplate | .thingShape =>
    let query := entityKindName e.kind ++ "s/" ++ e.name ++
      "/Services/GetImplementingThings"
    match respond query with
    | .error _ => ([query], [])
    | .ok response =>
      if response.statusCode ≠ 200 then ([query], [])
      else
        (query :: response.rows.map
          (fun row => "Things/" ++ row ++ "/Services/" ++ e.service), [])
  | .unsupported _ => ([], [skipMessage e])

/-- The Deploy stage (deploy.ts lines 9-42): process every endpoint in
order; no branch throws, so processing always continues to the next
endpoint. Returns the concatenated request trace and console skip
messages. -/
def deploy (respond : String → Except String InvokeResponse) :
    List DeploymentEndpoint → List String × List String
  | [] => ([], [])
  | e :: rest =>
    let (reqs, msgs) := deployOne respond e
    let (restReqs, restMsgs) := deploy respond rest
    (reqs ++ restReqs, msgs ++ restMsgs)

/-! ## Concrete fixtures used by the witnesses and counterexamples -/

/-- A concrete watch state with a `declarations()` run in flight. -/
def busyWatchState : WatchState :=
  { declarationsRunning := true, timerScheduled := false,
    declarationsActive := true, runsStarted := 1 }

/-- A concrete endpoint of a kind the Deploy stage does not support. -/
def dataShapeEndpoint : DeploymentEndpoint :=
  { kind := .unsupported "DataShape", name := "MyShape", service := "Deploy" }

/-- Connection details with a server but no credentials of either kind. -/
def credentiallessDetails : ConnectionDetails :=
  { thingworxServer := some "http://localhost:8015",
    thingworxUser := none, thingworxPassword := none,
    thingworxAppKey := none }

/-- A compile result with a single Warning-kind validation diagnostic and
no error: the compiler emitted successfully and typescript itself reported
nothing. -/
def warningOnlyResult : TranspileResult :=
  { emitSkipped := false, formattedDiagnostics := "",
    storeDiagnostics := [{ kind := .warning, message := "validation warning" }] }

/-- A library project nobody depends on. -/
def coreSource : TWProjectSource :=
  { name := "Core", kind := .typeScript, includePaths := ["./src/**/*.ts"] }

/-- A project that declares a dependency on `Core`. -/
def uiSource : TWProjectSource :=
  { name := "UI", kind := .typeScript,
    includePaths := ["./src/**/*.ts", "../Core"] }

/-- `UI` with its resolved dependency. -/
def uiResolved : TWProjectWithDependencies :=
  { name := "UI", kind := .typeScript, parentProjects := ["Core"] }

/-- `Core` with no dependencies. -/
def coreResolved : TWProjectWithDependencies :=
  { name := "Core", kind := .typeScript, parentProjects := [] }

/-- A removal oracle for which deleting the UI package fails with a
network error while every other deletion succeeds. -/
def removeOracle : String → Except String TWClientResponse :=
  fun name =>
    if name = "pkg-UI" then .error "connect ECONNREFUSED"
    else .ok { statusCode := 200, statusMessage := "OK", body := "" }

/-- A compile result with only a Warning-kind diagnostic. -/
def warnedResult : TranspileResult :=
  { emitSkipped := false, formattedDiagnostics := "",
    storeDiagnostics := [{ kind := .warning, message := "minor" }] }

/-- A compile result with an Error-kind validation diagnostic. -/
def erroredResult : TranspileResult :=
  { emitSkipped := false, formattedDiagnostics := "",
    storeDiagnostics := [{ kind := .error, message := "bad service" }] }

/-- A clean compile result. -/
def cleanResult : TranspileResult :=
  { emitSkipped := false, formattedDiagnostics := "", storeDiagnostics := [] }

/-- A base project at the bottom of a three-project dependency chain. -/
def baseSource : TWProjectSource :=
  { name := "Base", kind := .typeScript, includePaths := ["./src/**/*.ts"] }

/-- The middle project of the chain: depends on `Base`. -/
def midSource : TWProjectSource :=
  { name := "Mid", kind := .typeScript,
    includePaths := ["./src/**/*.ts", "../Base"] }

/-- The top project of the chain: depends on `Mid`. -/
def topSource : TWProjectSource :=
  { name := "Top", kind := .typeScript,
    includePaths := ["./src/**/*.ts", "../Mid"] }

/-- The chain resolved and dependency-sorted: dependents first. -/
def chainSorted : List TWProjectWithDependencies :=
  [{ name := "Top", kind := .typeScript, parentProjects := ["Mid"] },
   { name := "Mid", kind := .typeScript, parentProjects := ["Base"] },
   { name := "Base", kind := .typeScript, parentProjects := [] }]

/-- A transport oracle that rejects the `Mid` artifact with a 500 and
accepts everything else. -/
def uploadOracle : String → TWClientResponse :=
  fun path =>
    if path = zipPathOf "/repo" "pkg" "1.0.0" "Mid" then
      { statusCode := 500, statusMessage := "Internal Server Error", body := "" }
    else
      { statusCode := 200, statusMessage := "OK", body := "" }

/-- A project declaring a dependency on a project that does not exist. -/
def orphanSource : TWProjectSource :=
  { name := "Alpha", kind := .typeScript,
    includePaths := ["./src/**/*.ts", "../Beta"] }

/-- `Base` with no dependencies. -/
def baseResolved : TWProjectWithDependencies :=
  { name := "Base", kind := .typeScript, parentProjects := [] }

/-- `Top` with its resolved dependency on `Mid`. -/
def topResolved : TWProjectWithDependencies :=
  { name := "Top", kind := .typeScript, parentProjects := ["Mid"] }

/-- `Mid` with its resolved dependency on `Base`. -/
def midResolved : TWProjectWithDependencies :=
  { name := "Mid", kind := .typeScript, parentProjects := ["Base"] }

/-! ## Theorems -/

/-- One watch step preserves the watch invariant. -/
theorem watchStep_preserves_invariant (s : WatchState) (e : WatchEvent)
    (h : watchInvariant s = true) : watchInvariant (watchStep s e) = true := by
  rcases s with ⟨dr, ts, da, n⟩
  rcases e with f | _ | _ <;>
    [rcases f with _ | _ ; skip ; skip] <;>
    cases dr <;> cases ts <;> cases da <;>
    simp_all [watchStep, watchInvariant]

/-- Every reachable watch state satisfies the invariant. -/
theorem watchRun_invariant_aux (events : List WatchEvent) (s : WatchState)
    (h : watchInvariant s = true) :
    watchInvariant (events.foldl watchStep s) = true := by
  induction events generalizing s with
  | nil => exact h
  | cons e rest ih =>
    exact ih (watchStep s e) (watchStep_preserves_invariant s e h)

/-- C9: in watch mode, two change notifications within the debounce window
trigger exactly one Declarations run, and the re-entrancy guard prevents a
second run from starting while one is in flight: every reachable state
satisfies the guard invariant; the concrete two-changes trace starts
exactly one run; and in any invariant state with a run active, a further
file change and a timer firing both leave the state unchanged (events are
dropped, not queued). -/
theorem watch_debounce_and_reentrancy :
    (∀ events : List WatchEvent, watchInvariant (watchRun events) = true) ∧
    (watchRun [.fileChanged false, .fileChanged false, .debounceTimerFired,
      .declarationsFinished]).runsStarted = 1 ∧
    (∀ s : WatchState, watchInvariant s = true → s.declarationsActive = true →
      (∀ f, watchStep s (.fileChanged f) = s) ∧
      watchStep s .debounceTimerFired = s) := by
  refine ⟨?_, by decide, ?_⟩
  · intro events
    exact watchRun_invariant_aux events watchInit (by decide)
  · intro s hinv hact
    rcases s with ⟨dr, ts, da, n⟩
    cases dr <;> cases ts <;> cases da <;>
      simp_all [watchStep, watchInvariant]

/-- Witness for C9: a concrete invariant state with an active run drops a
file change, and the empty trace satisfies the invariant. -/
theorem watch_debounce_and_reentrancy_witness :
    watchInvariant (watchRun []) = true ∧
    watchStep busyWatchState (.fileChanged false) = busyWatchState :=
  ⟨watch_debounce_and_reentrancy.1 [],
   (watch_debounce_and_reentrancy.2.2 busyWatchState
      (by decide) (by decide)).1 false⟩

/-- An endpoint of an unsupported kind issues no request and prints the
skip message. -/
theorem deployOne_unsupported (respond : String → Except String InvokeResponse)
    (e : DeploymentEndpoint) (h : supportedKind e.kind = false) :
    deployOne respond e = ([], [skipMessage e]) := by
  rcases e with ⟨k, n, sv⟩
  cases k <;> simp_all [deployOne, supportedKind]

/-- C10: the Deploy stage issues a remote service invocation only for
endpoints whose kind is Thing, ThingTemplate or ThingShape; an endpoint of
any other kind issues no request at all and is skipped with a console
message, and the requests issued are exactly those of the supported
endpoints, each processed in turn (processing always continues). -/
theorem deploy_skips_unsupported_kinds :
    (∀ (respond : String → Except String InvokeResponse)
      (e : DeploymentEndpoint), supportedKind e.kind = false →
        deployOne respond e = ([], [skipMessage e])) ∧
    (∀ (respond : String → Except String InvokeResponse)
      (endpoints : List DeploymentEndpoint),
        (deploy respond endpoints).1 =
          (endpoints.filter (fun e => supportedKind e.kind)).flatMap
            (fun e => (deployOne respond e).1)) := by
  refine ⟨fun respond e h => deployOne_unsupported respond e h, ?_⟩
  intro respond endpoints
  induction endpoints with
  | nil => simp [deploy]
  | cons e rest ih =>
    by_cases h : supportedKind e.kind = true
    · simp [deploy, List.filter_cons, h, ih]
    · have h' : supportedKind e.kind = false := by simpa using h
      simp [deploy, List.filter_cons, h', ih,
        deployOne_unsupported respond e h']

/-- Witness for C10: a DataShape-kind endpoint issues no request and is
skipped with its console message. -/
theorem deploy_skips_unsupported_kinds_witness :
    deployOne (fun _ => .ok { statusCode := 200, rows := [] })
      dataShapeEndpoint = ([], [skipMessage dataShapeEndpoint]) :=
  deploy_skips_unsupported_kinds.1
    (fun _ => .ok { statusCode := 200, rows := [] })
    dataShapeEndpoint (by decide)

/-- C8: when neither an app key nor a complete basic username/password
pair is configured (absent or empty, per JavaScript truthiness), every
remote operation fails with the configuration error, raised before any
HTTP request is handed to the transport: the request trace is empty. -/
theorem performRequest_requires_credentials (d : ConnectionDetails)
    (url method : String) (respond : SentRequest → TWClientResponse)
    (hkey : truthy d.thingworxAppKey = false)
    (hbasic : (truthy d.thingworxUser && truthy d.thingworxPassword) = false) :
    performRequest d url method respond =
      ([], .error authorizationFailureMessage) := by
  simp [performRequest, authorizeConnection, hkey, hbasic]

/-- Witness for C8: with no credentials configured at all, a request to
any endpoint fails with the configuration error and nothing is sent. -/
theorem performRequest_requires_credentials_witness :
    performRequest credentiallessDetails
      "Subsystems/PlatformSubsystem/Services/DeleteExtensionPackage" "post"
      (fun _ => { statusCode := 200, statusMessage := "OK", body := "" }) =
      ([], .error authorizationFailureMessage) :=
  performRequest_requires_credentials credentiallessDetails
    "Subsystems/PlatformSubsystem/Services/DeleteExtensionPackage" "post"
    (fun _ => { statusCode := 200, statusMessage := "OK", body := "" })
    (by decide) (by decide)

/-- Counterexample for C6: a present `--projects` argument with an empty
value does not mean "no filtering" — the parser throws
`No projects have been specified.` instead of returning nothing. -/
theorem projectsWithArguments_empty_value_throws :
    projectsWithArguments ["--projects="] =
      .error "No projects have been specified." ∧
    ¬ projectsWithArguments ["--projects="] = .ok none := by
  constructor
  · decide
  · decide

/-- C6 (amended): the project-filter parser returns "no filtering"
(nothing, not an empty list) only when no `--projects` argument is
present; a present argument with an empty value throws
`No projects have been specified.`; and for a comma-separated value it
returns exactly the named projects with surrounding whitespace trimmed and
empty entries dropped, e.g. `--projects=A, B ,` yields exactly `[A, B]`. -/
theorem projectsWithArguments_filter_spec :
    (∀ args : List String,
      (∀ a ∈ args, jsStartsWith a "--projects=" = false) →
        projectsWithArguments args = .ok none) ∧
    projectsWithArguments ["--projects="] =
      .error "No projects have been specified." ∧
    projectsWithArguments ["--projects=A, B ,"] = .ok (some ["A", "B"]) := by
  refine ⟨?_, by decide, by decide⟩
  intro args h
  induction args with
  | nil => rfl
  | cons a rest ih =>
    have ha : jsStartsWith a "--projects=" = false := h a (by simp)
    have hrest := ih (fun x hx => h x (by simp [hx]))
    simp [projectsWithArguments, ha, hrest]

/-- Witness for C6: no argument mentions `--projects`, so no filtering is
applied; and the concrete comma-separated value parses to exactly its
trimmed, non-empty entries. -/
theorem projectsWithArguments_filter_spec_witness :
    projectsWithArguments ["--merged", "--debug"] = .ok none ∧
    projectsWithArguments ["--projects=A, B ,"] = .ok (some ["A", "B"]) :=
  ⟨projectsWithArguments_filter_spec.1 ["--merged", "--debug"] (by decide),
   projectsWithArguments_filter_spec.2.2⟩

/-- C7 (code evaluated at the failing input): a Warning-kind diagnostic
never aborts — `buildProject` succeeds — but the collected warning is
*not* printed after the compile completes: the end-of-task loop
(build.ts lines 334-337) iterates the `diagnosticMessages` constant
declared empty at line 132, because the declaration at line 207 that holds
the collected diagnostics shadows it only inside the TypeScript branch, so
`warningsPrintedAtEnd` is empty although a warning was collected. -/
theorem buildProject_warning_not_printed :
    buildProject warningOnlyResult =
      .ok { printedFormattedDiagnostics := false, warningsPrintedAtEnd := [] } ∧
    warningOnlyResult.storeDiagnostics.any
      (fun m => m.kind == DiagnosticMessageKind.warning) = true := by
  constructor
  · decide
  · decide

/-- C5: the Remove stage iterates the projects in forward dependents-first
order, and every project gets its own removal outcome no matter how the
remote calls fare: the per-project `uninstallPackage` catches transport
errors and logs non-200 responses, so the stage returns one outcome per
sorted project, never throws, and therefore does not prevent the Upload
stage that `index.ts` runs next. -/
theorem removeStage_nonfatal_forward (ps : List TWProjectSource)
    (sorted : List TWProjectWithDependencies) (packageName : String)
    (respond : String → Except String TWClientResponse)
    (hs : dependencySortedProjects ps = .ok sorted) :
    removeStage ps "@auto" true packageName respond =
      .ok (sorted.map (fun p =>
        uninstallPackage respond (packageName ++ "-" ++ p.name))) := by
  simp [removeStage, hs]

/-- Witness for C5: with `UI` depending on `Core`, the stage removes
`pkg-UI` first (forward dependents-first order), its network failure is
recorded as a failed outcome, and `pkg-Core` is still removed and the
stage still returns successfully. -/
theorem removeStage_nonfatal_forward_witness :
    dependencySortedProjects [coreSource, uiSource] =
      .ok [uiResolved, coreResolved] ∧
    removeStage [coreSource, uiSource] "@auto" true "pkg" removeOracle =
      .ok ([uiResolved, coreResolved].map (fun p =>
        uninstallPackage removeOracle ("pkg-" ++ p.name))) ∧
    removeStage [coreSource, uiSource] "@auto" true "pkg" removeOracle =
      .ok [{ packageName := "pkg-UI", succeeded := false },
           { packageName := "pkg-Core", succeeded := true }] :=
  ⟨by decide,
   removeStage_nonfatal_forward [coreSource, uiSource]
     [uiResolved, coreResolved] "pkg" removeOracle (by decide),
   by decide⟩

/-- A project that neither failed to emit nor reported an Error-kind
diagnostic builds successfully. -/
theorem buildProject_ok_of_not_fails (r : TranspileResult)
    (h : projectFails r = false) : buildProject r = .ok (mkBuildOutput r) := by
  unfold projectFails at h
  rw [Bool.or_eq_false_iff] at h
  simp [buildProject, mkBuildOutput, h.1, h.2]

/-- A project that failed to emit or reported an Error-kind diagnostic
makes `buildProject` throw its failure message. -/
theorem buildProject_error_of_fails (r : TranspileResult)
    (h : projectFails r = true) :
    buildProject r = .error (buildFailureMessage r) := by
  unfold projectFails at h
  by_cases h1 : r.emitSkipped = true
  · simp [buildProject, buildFailureMessage, h1]
  · have h1' : r.emitSkipped = false := by simpa using h1
    rw [h1', Bool.false_or] at h
    simp [buildProject, buildFailureMessage, h1', h]

/-- C2: if any project fails to compile — unrecoverable emit failure or an
Error-kind validation diagnostic — the Compile stage aborts immediately at
the first such project: only the projects strictly before it complete
their build, the loop throws that project's failure message, and the
Package stage (`zip`) never runs for any project; if every project reports
at most Warning-kind diagnostics, every project builds and Package
proceeds. -/
theorem compile_abort_policy (rs : List TranspileResult) :
    (rs.any projectFails = false →
      buildRun rs = (rs.map mkBuildOutput, .ok ()) ∧
      buildCommandPackaged rs = true) ∧
    (rs.any projectFails = true →
      buildRun rs =
        ((rs.take (rs.findIdx projectFails)).map mkBuildOutput,
          .error (buildFailureMessage
            (rs.getD (rs.findIdx projectFails) default))) ∧
      buildCommandPackaged rs = false) := by
  induction rs with
  | nil =>
    refine ⟨fun _ => ⟨rfl, rfl⟩, fun h => by simp at h⟩
  | cons r rest ih =>
    constructor
    · intro h
      rw [List.any_cons, Bool.or_eq_false_iff] at h
      have hrec := ih.1 h.2
      have hb : buildRun (r :: rest) =
          ((r :: rest).map mkBuildOutput, .ok ()) := by
        simp [buildRun, buildProject_ok_of_not_fails r h.1, hrec.1]
      exact ⟨hb, by simp [buildCommandPackaged, hb]⟩
    · intro h
      by_cases hr : projectFails r = true
      · have hb : buildRun (r :: rest) =
            (((r :: rest).take ((r :: rest).findIdx projectFails)).map
              mkBuildOutput,
             .error (buildFailureMessage
               ((r :: rest).getD ((r :: rest).findIdx projectFails) default))) := by
          simp [buildRun, buildProject_error_of_fails r hr,
            List.findIdx_cons, hr]
        exact ⟨hb, by simp [buildCommandPackaged, hb]⟩
      · have hr' : projectFails r = false := by simpa using hr
        have hrest : rest.any projectFails = true := by
          rw [List.any_cons, hr', Bool.false_or] at h
          exact h
        have hrec := ih.2 hrest
        have hb : buildRun (r :: rest) =
            (((r :: rest).take ((r :: rest).findIdx projectFails)).map
              mkBuildOutput,
             .error (buildFailureMessage
               ((r :: rest).getD ((r :: rest).findIdx projectFails) default))) := by
          simp [buildRun, buildProject_ok_of_not_fails r hr', hrec.1,
            List.findIdx_cons, hr']
        exact ⟨hb, by simp [buildCommandPackaged, hb]⟩

/-- Witness for C2: with an Error-kind diagnostic in the second of three
projects, only the first project completes, the loop throws
`Validation failed.` and Package never runs; with warnings only, all
projects build and Package runs. -/
theorem compile_abort_policy_witness :
    ([warnedResult, erroredResult, cleanResult].any projectFails = true ∧
      (buildRun [warnedResult, erroredResult, cleanResult] =
        (([warnedResult, erroredResult, cleanResult].take
            ([warnedResult, erroredResult, cleanResult].findIdx projectFails)).map
          mkBuildOutput,
         .error (buildFailureMessage
           ([warnedResult, erroredResult, cleanResult].getD
             ([warnedResult, erroredResult, cleanResult].findIdx projectFails)
             default))) ∧
       buildCommandPackaged [warnedResult, erroredResult, cleanResult] = false)) ∧
    ([warnedResult, cleanResult].any projectFails = false ∧
      (buildRun [warnedResult, cleanResult] =
        ([warnedResult, cleanResult].map mkBuildOutput, .ok ()) ∧
       buildCommandPackaged [warnedResult, cleanResult] = true)) :=
  ⟨⟨by decide,
    (compile_abort_policy [warnedResult, erroredResult, cleanResult]).2 (by decide)⟩,
   ⟨by decide,
    (compile_abort_policy [warnedResult, cleanResult]).1 (by decide)⟩⟩

/-- In the upload loop (push off, no filter), if the artifacts of the
first `k` projects come back 200 and the `(k+1)`-st comes back non-200,
then exactly the first `k+1` artifacts are attempted — `k` successes and
one failure — and the loop throws the transport failure message. -/
theorem uploadLoop_abort_on_non200 (cwd packageName version : String)
    (respond : String → TWClientResponse)
    (scRespond : String → Except String Unit)
    (qs : List TWProjectWithDependencies) (k : Nat)
    (hk : k < qs.length)
    (hbefore : ∀ i, i < k →
      (respond (zipPathOf cwd packageName version
        (qs.getD i default).name)).statusCode = 200)
    (hfail : (respond (zipPathOf cwd packageName version
      (qs.getD k default).name)).statusCode ≠ 200) :
    uploadLoop false none cwd packageName version respond scRespond qs =
      ((qs.take k).map (fun q => { projectName := q.name, succeeded := true }) ++
        [{ projectName := (qs.getD k default).name, succeeded := false }],
       .error (uploadFailureMessage (respond (zipPathOf cwd packageName version
         (qs.getD k default).name)))) := by
  induction qs generalizing k with
  | nil => simp at hk
  | cons q rest ih =>
    cases k with
    | zero =>
      simp only [List.getD_cons_zero] at hfail ⊢
      simp [uploadLoop, filterSkips, uploadOne, uploadExtensionStep, hfail,
        List.take_zero]
    | succ k =>
      have hq : (respond (zipPathOf cwd packageName version q.name)).statusCode
          = 200 := by
        have := hbefore 0 (Nat.succ_pos k)
        simpa using this
      have hrec := ih k (by simpa using hk)
        (fun i hi => by
          have := hbefore (i + 1) (Nat.succ_lt_succ hi)
          simpa using this)
        (by simpa using hfail)
      simp only [List.getD_cons_succ] at hfail ⊢
      simp [uploadLoop, filterSkips, uploadOne, uploadExtensionStep, hq, hrec,
        List.take_succ_cons]

/-- C3: during the Upload stage (separate mode, push off, no filter) over
the projects in reverse dependents-first order, a non-200 transport
response for one project's artifact throws and aborts the remaining upload
sequence: with the first `k` artifacts accepted and the `(k+1)`-st
rejected, the attempted uploads are exactly the `k` earlier successes —
unaffected — followed by the one failure, no later project is attempted,
and the stage ends with the thrown transport error. -/
theorem uploadStage_aborts_on_transport_error (ps : List TWProjectSource)
    (sorted : List TWProjectWithDependencies)
    (cwd packageName version : String)
    (respond : String → TWClientResponse)
    (scRespond : String → Except String Unit) (k : Nat)
    (hs : dependencySortedProjects ps = .ok sorted)
    (hk : k < sorted.reverse.length)
    (hbefore : ∀ i, i < k →
      (respond (zipPathOf cwd packageName version
        (sorted.reverse.getD i default).name)).statusCode = 200)
    (hfail : (respond (zipPathOf cwd packageName version
      (sorted.reverse.getD k default).name)).statusCode ≠ 200) :
    uploadStage ps false none cwd packageName version respond scRespond =
      ((sorted.reverse.take k).map
          (fun q => { projectName := q.name, succeeded := true }) ++
        [{ projectName := (sorted.reverse.getD k default).name,
           succeeded := false }],
       .error (uploadFailureMessage (respond (zipPathOf cwd packageName version
         (sorted.reverse.getD k default).name)))) := by
  have h := uploadLoop_abort_on_non200 cwd packageName version respond
    scRespond sorted.reverse k hk hbefore hfail
  simpa [uploadStage, hs] using h

/-- Witness for C3: the chain uploads in reverse order `Base, Mid, Top`;
`Base` succeeds, `Mid` is rejected with a 500, the stage throws, and `Top`
is never attempted. -/
theorem uploadStage_aborts_on_transport_error_witness :
    dependencySortedProjects [topSource, midSource, baseSource] =
      .ok chainSorted ∧
    (uploadOracle (zipPathOf "/repo" "pkg" "1.0.0"
      (chainSorted.reverse.getD 1 default).name)).statusCode ≠ 200 ∧
    uploadStage [topSource, midSource, baseSource] false none "/repo" "pkg"
      "1.0.0" uploadOracle (fun _ => .ok ()) =
      ((chainSorted.reverse.take 1).map
          (fun q => { projectName := q.name, succeeded := true }) ++
        [{ projectName := (chainSorted.reverse.getD 1 default).name,
           succeeded := false }],
       .error (uploadFailureMessage (uploadOracle (zipPathOf "/repo" "pkg"
         "1.0.0" (chainSorted.reverse.getD 1 default).name)))) :=
  ⟨by decide, by decide,
   uploadStage_aborts_on_transport_error [topSource, midSource, baseSource]
     chainSorted "/repo" "pkg" "1.0.0" uploadOracle (fun _ => .ok ()) 1
     (by decide) (by decide)
     (by
       intro i hi
       have hi0 : i = 0 := by omega
       rw [hi0]
       decide)
     (by decide)⟩

/-- If some declared dependency name in the list resolves to no discovered
project, `resolveParents` throws the missing-dependency message for the
first such name. -/
theorem resolveParents_error_of_missing (all : List TWProjectSource)
    (dependentName : String) (ds : List String)
    (h : ∃ d ∈ ds, all.find? (fun q => q.name == d) = none) :
    ∃ d ∈ ds, all.find? (fun q => q.name == d) = none ∧
      resolveParents all dependentName ds =
        .error (missingDependencyMessage dependentName d) := by
  induction ds with
  | nil => simp at h
  | cons d0 ds ih =>
    cases hf : all.find? (fun q => q.name == d0) with
    | none =>
      exact ⟨d0, by simp, hf, by simp [resolveParents, hf]⟩
    | some p2 =>
      obtain ⟨d, hd, hnone⟩ := h
      rcases List.mem_cons.mp hd with rfl | hd'
      · rw [hf] at hnone; cases hnone
      · obtain ⟨d', hd'', hn', herr⟩ := ih ⟨d, hd', hnone⟩
        refine ⟨d', by simp [hd''], hn', ?_⟩
        simp [resolveParents, hf, herr]

/-- If every declared dependency name resolves, `resolveParents`
succeeds. -/
theorem resolveParents_ok_of_resolved (all : List TWProjectSource)
    (dependentName : String) (ds : List String)
    (h : ∀ d ∈ ds, all.find? (fun q => q.name == d) ≠ none) :
    ∃ out, resolveParents all dependentName ds = .ok out := by
  induction ds with
  | nil => exact ⟨[], rfl⟩
  | cons d0 ds ih =>
    cases hf : all.find? (fun q => q.name == d0) with
    | none => exact absurd hf (h d0 (by simp))
    | some p2 =>
      obtain ⟨out, hout⟩ := ih (fun d hd => h d (by simp [hd]))
      exact ⟨p2.name :: out, by simp [resolveParents, hf, hout]⟩

/-- If some processed project declares a dependency that resolves to no
discovered project, the resolution loop throws the missing-dependency
message naming a dependent and its unresolvable dependency. -/
theorem resolveLoop_error_of_missing (all : List TWProjectSource)
    (todo : List TWProjectSource)
    (h : ∃ p ∈ todo, ∃ d ∈ parentNamesOf p,
      all.find? (fun q => q.name == d) = none) :
    ∃ p ∈ todo, ∃ d ∈ parentNamesOf p,
      all.find? (fun q => q.name == d) = none ∧
      resolveLoop all todo = .error (missingDependencyMessage p.name d) := by
  induction todo with
  | nil => simp at h
  | cons p0 rest ih =>
    by_cases hp : ∃ d ∈ parentNamesOf p0, all.find? (fun q => q.name == d) = none
    · obtain ⟨d, hd, hn, herr⟩ :=
        resolveParents_error_of_missing all p0.name (parentNamesOf p0) hp
      exact ⟨p0, by simp, d, hd, hn, by simp [resolveLoop, herr]⟩
    · have hall : ∀ d ∈ parentNamesOf p0,
          all.find? (fun q => q.name == d) ≠ none := by
        intro d hd hnone
        exact hp ⟨d, hd, hnone⟩
      obtain ⟨out, hout⟩ :=
        resolveParents_ok_of_resolved all p0.name (parentNamesOf p0) hall
      obtain ⟨p, hpmem, d, hd, hn, herr⟩ := ih (by
        obtain ⟨p, hpmem, d, hd, hn⟩ := h
        rcases List.mem_cons.mp hpmem with rfl | hpmem'
        · exact absurd ⟨d, hd, hn⟩ hp
        · exact ⟨p, hpmem', d, hd, hn⟩)
      refine ⟨p, by simp [hpmem], d, hd, hn, ?_⟩
      simp [resolveLoop, hout, herr]

/-- C4: when any project declares a sibling dependency whose name matches
no discovered project, `dependencySortedProjects` fails with the
configuration error naming the dependent and the missing dependency
(`project X depends on project Y which does not exist`) and returns no
list, partial or otherwise. -/
theorem dependencySortedProjects_missing_dependency
    (ps : List TWProjectSource)
    (h : ∃ p ∈ ps, ∃ d ∈ parentNamesOf p,
      ps.find? (fun q => q.name == d) = none) :
    ∃ p ∈ ps, ∃ d ∈ parentNamesOf p,
      ps.find? (fun q => q.name == d) = none ∧
      dependencySortedProjects ps =
        .error (missingDependencyMessage p.name d) ∧
      ∀ l, dependencySortedProjects ps ≠ .ok l := by
  obtain ⟨p, hpmem, d, hd, hn, herr⟩ := resolveLoop_error_of_missing ps ps h
  refine ⟨p, hpmem, d, hd, hn, ?_, ?_⟩
  · simp [dependencySortedProjects, herr]
  · intro l hl
    rw [dependencySortedProjects, herr] at hl
    cases hl

/-- Witness for C4: a repository whose only project depends on the
nonexistent `Beta` makes `dependencySortedProjects` fail with the
configuration error and return no list. -/
theorem dependencySortedProjects_missing_dependency_witness :
    (∃ p ∈ [orphanSource], ∃ d ∈ parentNamesOf p,
      [orphanSource].find? (fun q => q.name == d) = none) ∧
    (∃ p ∈ [orphanSource], ∃ d ∈ parentNamesOf p,
      [orphanSource].find? (fun q => q.name == d) = none ∧
      dependencySortedProjects [orphanSource] =
        .error (missingDependencyMessage p.name d) ∧
      ∀ l, dependencySortedProjects [orphanSource] ≠ .ok l) :=
  ⟨by decide,
   dependencySortedProjects_missing_dependency [orphanSource] (by decide)⟩

/-- Counterexample for C1: the three-project chain `Top → Mid → Base`,
discovered in the order `Base, Top,Mid`, has acyclic declared edges (a
DAG), yet `dependencySortedProjects` returns the discovery order
unchanged — the adjacent comparator values are all ≥ 0, so the sort sees
one ascending run — and that order places the dependent `Mid` *after* its
declared dependency `Base`; its reverse likewise fails to place every
dependency before its dependents. -/
theorem dependencySortedProjects_counterexample_chain :
    dependencySortedProjects [baseSource, topSource, midSource] =
      .ok [baseResolved, topResolved, midResolved] ∧
    isAcyclic [baseResolved, topResolved, midResolved] ∧
    ¬ dependentsFirst [baseResolved, topResolved, midResolved] ∧
    ¬ dependenciesFirstInReverse [baseResolved, topResolved, midResolved] := by
  refine ⟨by decide, ?_, by decide, by decide⟩
  refine ⟨fun n => if n = "Top" then 2 else if n = "Mid" then 1 else 0, ?_⟩
  decide

/-- A one-project list without a self-dependency is ordered both ways. -/
theorem singleton_ordered (q : TWProjectWithDependencies)
    (hq : q.name ∉ q.parentProjects) :
    dependentsFirst [q] ∧ dependenciesFirstInReverse [q] := by
  constructor
  · intro i j hm
    fin_cases i; fin_cases j; simp_all
  · intro i j hm
    fin_cases i; fin_cases j; simp_all

/-- A two-project list whose first element may depend on the second but
not vice versa, with no self-dependencies, is ordered both ways:
dependents first in the forward order, dependencies first in the
reverse. -/
theorem pair_ordered (q r : TWProjectWithDependencies)
    (hq : q.name ∉ q.parentProjects) (hr : r.name ∉ r.parentProjects)
    (hrq : q.name ∉ r.parentProjects) :
    dependentsFirst [q, r] ∧ dependenciesFirstInReverse [q, r] := by
  constructor
  · intro i j hm
    fin_cases i <;> fin_cases j <;> simp_all
  · intro i j hm
    fin_cases i <;> fin_cases j <;> simp_all

/-- C1 (amended): for discovered project sets of at most two projects
whose declared dependency edges form a DAG, `dependencySortedProjects`
places every dependent before each of its declared dependencies, and the
exact reverse of the returned list places every dependency before each of
its dependents; with three or more projects the comparator-based sort can
violate both (see the chain counterexample). -/
theorem dependencySortedProjects_ordered_of_le_two
    (ps : List TWProjectSource) (l : List TWProjectWithDependencies)
    (hlen : ps.length ≤ 2)
    (hok : dependencySortedProjects ps = .ok l)
    (hacyc : isAcyclic l) :
    dependentsFirst l ∧ dependenciesFirstInReverse l := by
  obtain ⟨rank, hrank⟩ := hacyc
  match ps, hlen with
  | [], _ =>
    have hl : l = [] := by
      simp [dependencySortedProjects, resolveLoop, jsSort] at hok
      exact hok
    subst hl
    constructor
    · intro i j hm
      exact absurd i.isLt (by simp)
    · intro i j hm
      exact absurd i.isLt (by simp)
  | [a], _ =>
    cases hra : resolveParents [a] a.name (parentNamesOf a) with
    | error e => simp [dependencySortedProjects, resolveLoop, hra] at hok
    | ok pa =>
      have hl : l = [{ name := a.name, kind := a.kind, parentProjects := pa }] := by
        simp [dependencySortedProjects, resolveLoop, hra, jsSort] at hok
        exact hok.symm
      subst hl
      apply singleton_ordered
      intro hmem
      exact absurd
        (hrank { name := a.name, kind := a.kind, parentProjects := pa }
          (by simp) a.name hmem)
        (Nat.lt_irrefl _)
  | [a, b], _ =>
    cases hra : resolveParents [a, b] a.name (parentNamesOf a) with
    | error e => simp [dependencySortedProjects, resolveLoop, hra] at hok
    | ok pa =>
    cases hrb : resolveParents [a, b] b.name (parentNamesOf b) with
    | error e => simp [dependencySortedProjects, resolveLoop, hra, hrb] at hok
    | ok pb =>
    by_cases hA : pa.contains b.name = true
    · have hmemA : b.name ∈ pa := by simpa using hA
      have hl : l = [{ name := a.name, kind := a.kind, parentProjects := pa },
          { name := b.name, kind := b.kind, parentProjects := pb }] := by
        simp [dependencySortedProjects, resolveLoop, hra, hrb, jsSort,
          projectComparator, hmemA, ascRun, binaryInsertAll] at hok
        exact hok.symm
      subst hl
      have hselfa : a.name ∉ pa := fun hmem =>
        absurd (hrank { name := a.name, kind := a.kind, parentProjects := pa }
          (by simp) a.name hmem) (Nat.lt_irrefl _)
      have hselfb : b.name ∉ pb := fun hmem =>
        absurd (hrank { name := b.name, kind := b.kind, parentProjects := pb }
          (by simp) b.name hmem) (Nat.lt_irrefl _)
      have hab : a.name ∉ pb := by
        intro hmem
        have h1 : rank a.name < rank b.name :=
          hrank { name := b.name, kind := b.kind, parentProjects := pb }
            (by simp) a.name hmem
        have h2 : rank b.name < rank a.name :=
          hrank { name := a.name, kind := a.kind, parentProjects := pa }
            (by simp) b.name hmemA
        omega
      exact pair_ordered _ _ hselfa hselfb hab
    · have hnotA : b.name ∉ pa := by simpa using hA
      by_cases hB : pb.contains a.name = true
      · have hmemB : a.name ∈ pb := by simpa using hB
        have hl : l = [{ name := b.name, kind := b.kind, parentProjects := pb },
            { name := a.name, kind := a.kind, parentProjects := pa }] := by
          simp [dependencySortedProjects, resolveLoop, hra, hrb, jsSort,
            projectComparator, hnotA, hmemB, descRun, binaryInsertAll] at hok
          exact hok.symm
        subst hl
        have hselfa : a.name ∉ pa := fun hmem =>
          absurd (hrank { name := a.name, kind := a.kind, parentProjects := pa }
            (by simp) a.name hmem) (Nat.lt_irrefl _)
        have hselfb : b.name ∉ pb := fun hmem =>
          absurd (hrank { name := b.name, kind := b.kind, parentProjects := pb }
            (by simp) b.name hmem) (Nat.lt_irrefl _)
        exact pair_ordered _ _ hselfb hselfa hnotA
      · have hnotB : a.name ∉ pb := by simpa using hB
        have hl : l = [{ name := a.name, kind := a.kind, parentProjects := pa },
            { name := b.name, kind := b.kind, parentProjects := pb }] := by
          simp [dependencySortedProjects, resolveLoop, hra, hrb, jsSort,
            projectComparator, hnotA, hnotB, ascRun, binaryInsertAll] at hok
          exact hok.symm
        subst hl
        have hselfa : a.name ∉ pa := fun hmem =>
          absurd (hrank { name := a.name, kind := a.kind, parentProjects := pa }
            (by simp) a.name hmem) (Nat.lt_irrefl _)
        have hselfb : b.name ∉ pb := fun hmem =>
          absurd (hrank { name := b.name, kind := b.kind, parentProjects := pb }
            (by simp) b.name hmem) (Nat.lt_irrefl _)
        exact pair_ordered _ _ hselfa hselfb hnotB

/-- Witness for the amended C1: the two-project repository where `UI`
depends on `Core` sorts to `UI, Core` — dependent first — and its reverse
puts the dependency first. -/
theorem dependencySortedProjects_ordered_of_le_two_witness :
    dependencySortedProjects [coreSource, uiSource] =
      .ok [uiResolved, coreResolved] ∧
    (dependentsFirst [uiResolved, coreResolved] ∧
     dependenciesFirstInReverse [uiResolved, coreResolved]) :=
  ⟨by decide,
   dependencySortedProjects_ordered_of_le_two [coreSource, uiSource]
     [uiResolved, coreResolved] (by decide) (by decide)
     ⟨fun n => if n = "UI" then 1 else 0, by decide⟩⟩

end ThingCLI
